import Mathlib

/-!
Verification of the mail-scanner pipeline (src/index.ts).

Shallow embedding of the mail-scanner batch job: fetch unread emails,
classify each with a language model, aggregate into a textual report,
dispatch the report by mail or to process output.

Conventions of the embedding:
* TypeScript optional / nullable string fields become `Option String`;
  JavaScript truthiness of a string (`if (s)`, `s || dflt`) treats both
  the absent value and the empty string as falsy, which `truthyStr`
  captures.
* Effectful calls (token acquisition, mailbox listing, the language-model
  request, the outgoing send) are modelled by an environment record
  carrying each call's outcome; `main` consumes the environment and
  returns the list of outward mailbox/report calls it performed together
  with the final run outcome.
* `new Date().toLocaleDateString()` in the report title is modelled by an
  explicit `today` argument.
* `Record<string, number>` (the category tally object) is modelled as an
  insertion-ordered association list, matching JavaScript object key
  insertion order as observed by `Object.entries`.
-/

set_option autoImplicit false

namespace MailScanner

/-- A mail message as consumed by the pipeline: `id`, `subject`,
`body.content` and `from.emailAddress.address` are all optional in the
Microsoft Graph `Message` type. -/
structure Email where
  id : Option String
  subject : Option String
  bodyContent : Option String
  fromAddress : Option String
  deriving Repr, DecidableEq

/-- The `EmailClassification` interface: four string fields
(`category`, `importance`, `suggestedAction`, `summary`). -/
structure EmailClassification where
  category : String
  importance : String
  suggestedAction : String
  summary : String
  deriving Repr, DecidableEq

/-- One element of the accumulated `classifications` array:
an email paired with its classification or `null`. -/
structure ClassifiedEmail where
  email : Email
  classification : Option EmailClassification
  deriving Repr, DecidableEq

/-- JavaScript truthiness for an optional string: `undefined`/`null` and
the empty string are falsy; a truthy string is returned. -/
def truthyStr : Option String → Option String
  | some s => if s = "" then none else some s
  | none => none

/-- Boolean view of string truthiness, as used in the if-checks. -/
def envTruthy (o : Option String) : Bool :=
  (truthyStr o).isSome

/-- JavaScript `o || dflt` on an optional string. -/
def orFalsy (o : Option String) (dflt : String) : String :=
  match truthyStr o with
  | some s => s
  | none => dflt

/-- JavaScript template interpolation of an optional value with no
fallback: an absent value prints as "undefined". -/
def tsShow : Option String → String
  | some s => s
  | none => "undefined"

/-! ## Classifier (`classifyWithOpenAI`) -/

/-- A JSON value, the result of a successful `JSON.parse`. -/
inductive Json where
  | jnull
  | jbool (b : Bool)
  | jnum (n : Int)
  | jstr (s : String)
  | jarr (elems : List Json)
  | jobj (fields : List (String × Json))
  deriving Repr

/-- Field lookup on a JSON object (first binding wins), `none` otherwise. -/
def jsonField (v : Json) (key : String) : Option Json :=
  match v with
  | Json.jobj fields =>
      match fields.find? (fun p => p.1 = key) with
      | some p => some p.2
      | none => none
  | _ => none

/-- Outcome of `JSON.parse` on the completion text: either it throws
(the text is not JSON) or it yields a JSON value. -/
inductive ParsedContent where
  | parseError
  | value (v : Json)
  deriving Repr

/-- The observable outcome of the language-model interaction inside
`classifyWithOpenAI`: the request may throw (network or API error), the
returned `content` may be absent or empty (the `!content` check), or
there is content whose `JSON.parse` outcome is given. -/
inductive LMResponse where
  | requestError
  | missingContent
  | content (p : ParsedContent)
  deriving Repr

/-- The enumerated `category` values listed in the classification
prompt. -/
def validCategories : List String :=
  ["work", "personal", "spam", "newsletter", "urgent", "meeting", "invoice", "support"]

/-- The enumerated `importance` values listed in the classification
prompt. -/
def validImportances : List String :=
  ["low", "medium", "high", "critical"]

/-- The enumerated `suggestedAction` values listed in the classification
prompt. -/
def validActions : List String :=
  ["reply", "forward", "archive", "delete", "schedule_meeting", "follow_up", "no_action"]

/-- Function classifyWithOpenAI: any exception from the request or from
`JSON.parse` is caught and yields `null`; absent content yields `null`;
a successfully parsed JSON value is returned as the classification via
an unchecked `as EmailClassification` cast, with no validation of its
fields. -/
def classifyWithOpenAI : LMResponse → Option Json
  | LMResponse.requestError => none
  | LMResponse.missingContent => none
  | LMResponse.content ParsedContent.parseError => none
  | LMResponse.content (ParsedContent.value v) => some v

/-! ## Orchestrator: `processEmails` -/

/-- Function processEmails: for each email, in order, compute the prompt inputs
with the `"No Subject"` / `"No Content"` fallbacks, invoke the
classifier, and push the (email, classification-or-null) pair. The
classifier is abstracted as an oracle from (subject, body) to the
classification it yields for that email. -/
def processEmails (classify : String → String → Option EmailClassification)
    (emails : List Email) : List ClassifiedEmail :=
  emails.map (fun e =>
    { email := e
      classification := classify (orFalsy e.subject "No Subject") (orFalsy e.bodyContent "No Content") })

/-! ## Report generation (`generateSummaryReport`) -/

/-- Read `categoryCounts[cat] || 0` from the tally object. -/
def lookupCount (m : List (String × Nat)) (cat : String) : Nat :=
  match m.find? (fun p => p.1 = cat) with
  | some p => p.2
  | none => 0

/-- Whether the tally object already has a binding for `cat`. -/
def containsKey (m : List (String × Nat)) (cat : String) : Bool :=
  m.any (fun p => p.1 = cat)

/-- Overwrite every binding of `cat` with `v`, keeping positions. -/
def mapSet (m : List (String × Nat)) (cat : String) (v : Nat) : List (String × Nat) :=
  m.map (fun p => if p.1 = cat then (p.1, v) else p)

/-- JavaScript object assignment `m[cat] = v`: overwrite the existing
binding, else insert a new binding at the end (insertion order). -/
def setCategory (m : List (String × Nat)) (cat : String) (v : Nat) : List (String × Nat) :=
  if containsKey m cat then mapSet m cat v else m ++ [(cat, v)]

/-- The assignment that reads the current count of the category, or 0,
and stores the count plus one. -/
def bumpCategory (m : List (String × Nat)) (cat : String) : List (String × Nat) :=
  setCategory m cat (lookupCount m cat + 1)

/-- One step of the aggregation `forEach` on the tally: a pair with a
classification bumps that classification's category, a pair without one
leaves the tally unchanged. -/
def tallyStep (m : List (String × Nat)) (p : ClassifiedEmail) : List (String × Nat) :=
  match p.classification with
  | some c => bumpCategory m c.category
  | none => m

/-- The `categoryCounts` object after the aggregation `forEach`. -/
def categoryCounts (classifications : List ClassifiedEmail) : List (String × Nat) :=
  classifications.foldl tallyStep []

/-- The check that the importance string is high or critical, written in
the source as a disjunction of two strict string equalities. -/
def isHighPriority (c : EmailClassification) : Bool :=
  c.importance = "high" || c.importance = "critical"

/-- The `highPriorityEmails` array after the aggregation `forEach`:
classified pairs whose importance is the string "high" or "critical",
in input order. -/
def highPriorityEmails (classifications : List ClassifiedEmail) :
    List (Email × EmailClassification) :=
  classifications.foldl
    (fun acc p =>
      match p.classification with
      | some c => if isHighPriority c then acc ++ [(p.email, c)] else acc
      | none => acc)
    []

/-- The `category: count emails` lines of the Category Breakdown section,
one per entry of the tally object in insertion order. -/
def categoryLines (m : List (String × Nat)) : List String :=
  m.map (fun p => "  " ++ p.1 ++ ": " ++ toString p.2 ++ " emails")

/-- The lines pushed for one high-priority email: raw subject and sender
(no fallback — an absent field interpolates as "undefined"), action and
summary, final line carrying a trailing newline. -/
def highPriorityEntryLines (e : Email) (c : EmailClassification) : List String :=
  ["  • " ++ tsShow e.subject ++ " [" ++ c.importance ++ "]",
   "    From: " ++ tsShow e.fromAddress,
   "    Action: " ++ c.suggestedAction,
   "    Summary: " ++ c.summary ++ "\n"]

/-- The High Priority Emails section: header plus per-item lines, pushed
only when `highPriorityEmails` is non-empty. -/
def highPriorityLines (classifications : List ClassifiedEmail) : List String :=
  let hp := highPriorityEmails classifications
  if hp.length > 0 then
    "\n🚨 High Priority Emails:" :: hp.flatMap (fun q => highPriorityEntryLines q.1 q.2)
  else []

/-- The lines pushed for one entry of the All Email Summaries section
(subject and sender with fallbacks, then category/priority, action,
summary). -/
def allEntryLines (e : Email) (c : EmailClassification) : List String :=
  ["\n• " ++ orFalsy e.subject "No Subject",
   "  From: " ++ orFalsy e.fromAddress "Unknown",
   "  Category: " ++ c.category ++ " | Priority: " ++ c.importance,
   "  Suggested Action: " ++ c.suggestedAction,
   "  Summary: " ++ c.summary]

/-- The body of the All Email Summaries section: the final `forEach`
over `classifications`, pushing an entry for each pair whose
classification is non-null. -/
def allSummaryLines (classifications : List ClassifiedEmail) : List String :=
  classifications.foldl
    (fun acc p =>
      match p.classification with
      | some c => acc ++ allEntryLines p.email c
      | none => acc)
    []

/-- All lines of the report, in push order: title (with trailing
newline), Category Breakdown header and entries, optional High Priority
section, All Email Summaries header and entries. -/
def reportLines (today : String) (classifications : List ClassifiedEmail) : List String :=
  ("Email Summary Report - " ++ today ++ "\n")
    :: "📊 Category Breakdown:"
    :: (categoryLines (categoryCounts classifications)
        ++ highPriorityLines classifications
        ++ "\n📧 All Email Summaries:"
        :: allSummaryLines classifications)

/-- Function generateSummaryReport: the pushed lines joined with newline. -/
def generateSummaryReport (today : String) (classifications : List ClassifiedEmail) : String :=
  String.intercalate "\n" (reportLines today classifications)

/-! ## Environment configuration and `main` -/

/-- The environment variables destructured from `process.env`; each may
be unset. -/
structure Config where
  CLIENT_ID : Option String
  CLIENT_SECRET : Option String
  TENANT_ID : Option String
  AZURE_OPENAI_API_KEY : Option String
  AZURE_OPENAI_API_ENDPOINT : Option String
  AZURE_OPENAI_API_VERSION : Option String
  AZURE_OPENAI_DEPLOYMENT_NAME : Option String
  SUMMARY_TARGET_EMAIL : Option String
  TARGET_USER_ID : Option String
  SENDER_EMAIL_USER_ID : Option String
  deriving Repr, DecidableEq

/-- An outward call that `main` performs against the mailbox or the
process log: listing the inbox, an outgoing `sendMail` request, or
printing the finished report to process output. -/
inductive Call where
  | mailboxList
  | sendMail (recipient subject bodyText : String)
  | logReport (report : String)
  deriving Repr, DecidableEq

/-- How a run of `main` ends: `process.exit` with a code, the early
return on an empty inbox, completion after sending the summary, or
completion after printing it. -/
inductive Outcome where
  | exited (code : Nat)
  | nothingToDo
  | doneSent
  | donePrinted
  deriving Repr, DecidableEq

/-- The run environment: the configuration plus the outcome of each
external interaction (whether token acquisition resolves, the mailbox
listing's result, the classifier oracle per (subject, body), and whether
the outgoing `sendMail` request resolves). -/
structure Env where
  cfg : Config
  today : String
  tokenOk : Bool
  fetchResult : Except Unit (List Email)
  classifyOracle : String → String → Option EmailClassification
  sendOk : Bool

/-- Function sendSummaryEmail: warns and returns without sending when the
target address is falsy; otherwise acquires a Graph client (token) and
posts `sendMail` with fixed subject "Email Summary", the report as Text
body, and the configured address as sole recipient. The returned
`Except` is whether the function resolved or threw. -/
def sendSummaryEmail (e : Env) (summary : String) : List Call × Except Unit Unit :=
  match truthyStr e.cfg.SUMMARY_TARGET_EMAIL with
  | none => ([], Except.ok ())
  | some t =>
      if e.tokenOk then
        ([Call.sendMail t "Email Summary" summary],
         if e.sendOk then Except.ok () else Except.error ())
      else
        ([], Except.error ())

/-- Function main: validate credentials (exit 1 on missing Azure AD or Azure
OpenAI credentials), build the Graph client, fetch unread emails, return
early when none, process them into a report, then dispatch the report by
mail when a summary target is configured and to process output
otherwise. Any exception escaping these steps is caught by the
top-level handler, which logs it and exits with code 1. -/
def main (e : Env) : List Call × Outcome :=
  if !(envTruthy e.cfg.CLIENT_ID && envTruthy e.cfg.CLIENT_SECRET && envTruthy e.cfg.TENANT_ID) then
    ([], Outcome.exited 1)
  else if !(envTruthy e.cfg.AZURE_OPENAI_API_KEY && envTruthy e.cfg.AZURE_OPENAI_API_ENDPOINT) then
    ([], Outcome.exited 1)
  else if !e.tokenOk then
    ([], Outcome.exited 1)
  else
    match e.fetchResult with
    | Except.error _ => ([Call.mailboxList], Outcome.exited 1)
    | Except.ok emails =>
        if emails.length = 0 then
          ([Call.mailboxList], Outcome.nothingToDo)
        else
          let report := generateSummaryReport e.today (processEmails e.classifyOracle emails)
          if envTruthy e.cfg.SUMMARY_TARGET_EMAIL then
            match sendSummaryEmail e report with
            | (calls, Except.ok _) => (Call.mailboxList :: calls, Outcome.doneSent)
            | (calls, Except.error _) => (Call.mailboxList :: calls, Outcome.exited 1)
          else
            ([Call.mailboxList, Call.logReport report], Outcome.donePrinted)

/-! ## Specification-side characterizations

These definitions follow the spec's words; the claim theorems compare
the source-translated definitions above against them. -/

/-- Spec-side: the subsequence of successfully classified pairs, in
original order. -/
def specClassifiedPairs (classifications : List ClassifiedEmail) :
    List (Email × EmailClassification) :=
  classifications.filterMap (fun p => p.classification.map (fun c => (p.email, c)))

/-- Spec-side: the number of successfully classified emails of a given
category. -/
def specCategoryCount (classifications : List ClassifiedEmail) (cat : String) : Nat :=
  (classifications.filter (fun p =>
    match p.classification with
    | some c => c.category = cat
    | none => false)).length

/-- Spec-side: the number of successfully classified emails. -/
def specNumClassified (classifications : List ClassifiedEmail) : Nat :=
  (classifications.filter (fun p => p.classification.isSome)).length

/-- The sum of the tally's values. -/
def tallySum (m : List (String × Nat)) : Nat :=
  (m.map (fun p => p.2)).sum

/-- The outgoing `sendMail` calls of a trace. -/
def sendCalls (trace : List Call) : List Call :=
  trace.filter (fun c =>
    match c with
    | Call.sendMail _ _ _ => true
    | _ => false)

/-- The report-logging calls of a trace. -/
def logReportCalls (trace : List Call) : List Call :=
  trace.filter (fun c =>
    match c with
    | Call.logReport _ => true
    | _ => false)

/-- Spec-side: the classified pairs of high or critical importance, in
original order. -/
def specHighPriorityPairs (classifications : List ClassifiedEmail) :
    List (Email × EmailClassification) :=
  (specClassifiedPairs classifications).filter (fun q => isHighPriority q.2)

/-! ## Fold characterizations -/

theorem allSummaryLines_go (cs : List ClassifiedEmail) :
    ∀ acc : List String,
      cs.foldl
        (fun acc p =>
          match p.classification with
          | some c => acc ++ allEntryLines p.email c
          | none => acc) acc
      = acc ++ (specClassifiedPairs cs).flatMap (fun q => allEntryLines q.1 q.2) := by
  induction cs with
  | nil => intro acc; simp [specClassifiedPairs]
  | cons p cs ih =>
      intro acc
      rcases h : p.classification with _ | c
      · simp [List.foldl_cons, h, ih, specClassifiedPairs, List.filterMap_cons]
      · simp [List.foldl_cons, h, ih, specClassifiedPairs, List.filterMap_cons,
          List.flatMap_cons]

/-- The All Email Summaries section renders exactly one entry block per
successfully classified pair, in original order. -/
theorem allSummaryLines_eq (cs : List ClassifiedEmail) :
    allSummaryLines cs
      = (specClassifiedPairs cs).flatMap (fun q => allEntryLines q.1 q.2) := by
  simpa using allSummaryLines_go cs []

theorem highPriorityEmails_go (cs : List ClassifiedEmail) :
    ∀ acc : List (Email × EmailClassification),
      cs.foldl
        (fun acc p =>
          match p.classification with
          | some c => if isHighPriority c then acc ++ [(p.email, c)] else acc
          | none => acc) acc
      = acc ++ specHighPriorityPairs cs := by
  induction cs with
  | nil => intro acc; simp [specHighPriorityPairs, specClassifiedPairs]
  | cons p cs ih =>
      intro acc
      rcases h : p.classification with _ | c
      · simp [List.foldl_cons, h, ih, specHighPriorityPairs, specClassifiedPairs,
          List.filterMap_cons]
      · cases hc : isHighPriority c <;>
          simp [List.foldl_cons, h, hc, ih, specHighPriorityPairs, specClassifiedPairs,
            List.filterMap_cons, List.filter_cons]

/-- The `highPriorityEmails` accumulation equals the filter of the
classified pairs on high/critical importance. -/
theorem highPriorityEmails_eq (cs : List ClassifiedEmail) :
    highPriorityEmails cs = specHighPriorityPairs cs := by
  simpa [highPriorityEmails] using highPriorityEmails_go cs []

/-! ## Tally lemmas -/

/-- The keys of the tally object, in insertion order. -/
def tallyKeys (m : List (String × Nat)) : List String :=
  m.map Prod.fst

theorem lookupCount_cons (p : String × Nat) (m : List (String × Nat)) (c : String) :
    lookupCount (p :: m) c = if p.1 = c then p.2 else lookupCount m c := by
  by_cases h : p.1 = c <;> simp [lookupCount, List.find?_cons, h]

theorem containsKey_iff (m : List (String × Nat)) (cat : String) :
    containsKey m cat = true ↔ cat ∈ tallyKeys m := by
  simp [containsKey, tallyKeys, List.any_eq_true, List.mem_map]

theorem lookupCount_mapSet_ne (m : List (String × Nat)) (cat : String) (v : Nat)
    (c : String) (h : c ≠ cat) :
    lookupCount (mapSet m cat v) c = lookupCount m c := by
  induction m with
  | nil => rfl
  | cons p m ih =>
      have step : mapSet (p :: m) cat v
          = (if p.1 = cat then (p.1, v) else p) :: mapSet m cat v := rfl
      rw [step, lookupCount_cons, lookupCount_cons]
      by_cases hp : p.1 = cat
      · have hcc : ¬(cat = c) := fun he => h he.symm
        simp [hp, hcc, ih]
      · by_cases hc : p.1 = c <;> simp [hp, hc, h, ih]

theorem lookupCount_mapSet_eq (m : List (String × Nat)) (cat : String) (v : Nat)
    (h : containsKey m cat = true) :
    lookupCount (mapSet m cat v) cat = v := by
  induction m with
  | nil => simp [containsKey] at h
  | cons p m ih =>
      by_cases hp : p.1 = cat
      · simp [mapSet, hp, lookupCount_cons]
      · have h' : containsKey m cat = true := by
          simpa [containsKey, List.any_cons, hp] using h
        simpa [mapSet, hp, lookupCount_cons] using ih h'

theorem find?_eq_none_of_not_contains (m : List (String × Nat)) (cat : String)
    (h : containsKey m cat = false) :
    m.find? (fun p => p.1 = cat) = none := by
  rw [List.find?_eq_none]
  intro p hp
  simp [containsKey, List.any_eq_false] at h
  simp [h p.1 p.2 (by simpa using hp)]

theorem lookupCount_eq_zero (m : List (String × Nat)) (cat : String)
    (h : containsKey m cat = false) :
    lookupCount m cat = 0 := by
  simp [lookupCount, find?_eq_none_of_not_contains m cat h]

theorem lookupCount_setCategory (m : List (String × Nat)) (cat : String) (v : Nat)
    (c : String) :
    lookupCount (setCategory m cat v) c = if c = cat then v else lookupCount m c := by
  unfold setCategory
  by_cases h : containsKey m cat = true
  · by_cases hc : c = cat
    · subst hc; simp [h, lookupCount_mapSet_eq m c v h]
    · simp [h, hc, lookupCount_mapSet_ne m cat v c hc]
  · have hf : containsKey m cat = false := by simpa using h
    by_cases hc : c = cat
    · subst hc
      simp [hf, lookupCount, List.find?_append, find?_eq_none_of_not_contains m c hf,
        List.find?_cons]
    · have hcc : ¬(cat = c) := fun he => hc he.symm
      rcases hm : m.find? (fun p => p.1 = c) with _ | q <;>
        simp [hf, hc, lookupCount, List.find?_append, hm, List.find?_cons, hcc]

theorem lookupCount_bumpCategory (m : List (String × Nat)) (cat c : String) :
    lookupCount (bumpCategory m cat) c
      = if c = cat then lookupCount m cat + 1 else lookupCount m c :=
  lookupCount_setCategory m cat (lookupCount m cat + 1) c

theorem tallyKeys_mapSet (m : List (String × Nat)) (cat : String) (v : Nat) :
    tallyKeys (mapSet m cat v) = tallyKeys m := by
  induction m with
  | nil => rfl
  | cons p m ih =>
      by_cases hp : p.1 = cat <;> simp [mapSet, tallyKeys, hp] at * <;>
        simpa [mapSet, tallyKeys] using ih

theorem mapSet_of_not_contains (m : List (String × Nat)) (cat : String) (v : Nat)
    (h : containsKey m cat = false) :
    mapSet m cat v = m := by
  induction m with
  | nil => rfl
  | cons p m ih =>
      have hp : ¬(p.1 = cat) := by
        intro he; simp [containsKey, List.any_cons, he] at h
      have h' : containsKey m cat = false := by
        simpa [containsKey, List.any_cons, hp] using h
      simp [mapSet, hp] at *
      simpa [mapSet] using ih h'

theorem keysNodup_bumpCategory (m : List (String × Nat)) (cat : String)
    (h : (tallyKeys m).Nodup) :
    (tallyKeys (bumpCategory m cat)).Nodup := by
  unfold bumpCategory setCategory
  by_cases hc : containsKey m cat = true
  · simpa [hc, tallyKeys_mapSet] using h
  · have hf : containsKey m cat = false := by simpa using hc
    have hmem : cat ∉ tallyKeys m := by
      intro hm; exact absurd ((containsKey_iff m cat).mpr hm) (by simp [hf])
    rw [if_neg (by simp [hf])]
    have hkeys : tallyKeys (m ++ [(cat, lookupCount m cat + 1)]) = tallyKeys m ++ [cat] := by
      simp [tallyKeys]
    rw [hkeys]
    refine List.Nodup.append h (List.nodup_singleton cat) ?_
    intro x hx hy
    simp at hy
    subst hy
    exact hmem hx

theorem tallySum_cons (p : String × Nat) (m : List (String × Nat)) :
    tallySum (p :: m) = p.2 + tallySum m := by
  simp [tallySum]

theorem tallySum_bump_of_contains :
    ∀ (m : List (String × Nat)) (cat : String), (tallyKeys m).Nodup →
      containsKey m cat = true →
      tallySum (mapSet m cat (lookupCount m cat + 1)) = tallySum m + 1 := by
  intro m
  induction m with
  | nil => intro cat _ hc; simp [containsKey] at hc
  | cons p m ih =>
      intro cat hnd hc
      have hnd1 : p.1 ∉ tallyKeys m := (List.nodup_cons.mp (by simpa [tallyKeys] using hnd)).1
      have hnd2 : (tallyKeys m).Nodup := (List.nodup_cons.mp (by simpa [tallyKeys] using hnd)).2
      by_cases hp : p.1 = cat
      · have hcm : containsKey m cat = false := by
          by_contra hcc
          have h1 : containsKey m cat = true := by simpa using hcc
          exact hnd1 (by rw [hp]; exact (containsKey_iff m cat).mp h1)
        have hl : lookupCount (p :: m) cat = p.2 := by simp [lookupCount_cons, hp]
        have hstep : mapSet (p :: m) cat (lookupCount (p :: m) cat + 1)
            = (p.1, p.2 + 1) :: m := by
          rw [hl]
          show (if p.1 = cat then (p.1, p.2 + 1) else p) :: mapSet m cat (p.2 + 1)
              = (p.1, p.2 + 1) :: m
          rw [if_pos hp, mapSet_of_not_contains m cat _ hcm]
        rw [hstep, tallySum_cons, tallySum_cons]
        omega
      · have hcm : containsKey m cat = true := by
          simpa [containsKey, List.any_cons, hp] using hc
        have hl : lookupCount (p :: m) cat = lookupCount m cat := by
          simp [lookupCount_cons, hp]
        have hstep : mapSet (p :: m) cat (lookupCount (p :: m) cat + 1)
            = p :: mapSet m cat (lookupCount m cat + 1) := by
          rw [hl]
          show (if p.1 = cat then (p.1, lookupCount m cat + 1) else p)
              :: mapSet m cat (lookupCount m cat + 1)
              = p :: mapSet m cat (lookupCount m cat + 1)
          rw [if_neg hp]
        rw [hstep, tallySum_cons, tallySum_cons, ih cat hnd2 hcm]
        omega

theorem tallySum_bumpCategory (m : List (String × Nat)) (cat : String)
    (hnd : (tallyKeys m).Nodup) :
    tallySum (bumpCategory m cat) = tallySum m + 1 := by
  unfold bumpCategory setCategory
  by_cases hc : containsKey m cat = true
  · simpa [hc] using tallySum_bump_of_contains m cat hnd hc
  · have hf : containsKey m cat = false := by simpa using hc
    simp [hf, tallySum, lookupCount_eq_zero m cat hf]

theorem specCategoryCount_cons (p : ClassifiedEmail) (cs : List ClassifiedEmail)
    (cat : String) :
    specCategoryCount (p :: cs) cat
      = (match p.classification with
         | some c => if c.category = cat then 1 else 0
         | none => 0) + specCategoryCount cs cat := by
  rcases h : p.classification with _ | c
  · simp [specCategoryCount, List.filter_cons, h]
  · by_cases hc : c.category = cat <;>
      (simp [specCategoryCount, List.filter_cons, h, hc]; try omega)

theorem specNumClassified_cons (p : ClassifiedEmail) (cs : List ClassifiedEmail) :
    specNumClassified (p :: cs)
      = (if p.classification.isSome then 1 else 0) + specNumClassified cs := by
  rcases h : p.classification with _ | c <;>
    (simp [specNumClassified, List.filter_cons, h]; try omega)

theorem categoryCounts_go :
    ∀ (cs : List ClassifiedEmail) (m : List (String × Nat)), (tallyKeys m).Nodup →
      (tallyKeys (cs.foldl tallyStep m)).Nodup
      ∧ (∀ cat, lookupCount (cs.foldl tallyStep m) cat
          = lookupCount m cat + specCategoryCount cs cat)
      ∧ tallySum (cs.foldl tallyStep m) = tallySum m + specNumClassified cs := by
  intro cs
  induction cs with
  | nil =>
      intro m hnd
      exact ⟨hnd, fun cat => by simp [specCategoryCount], by simp [specNumClassified]⟩
  | cons p cs ih =>
      intro m hnd
      rcases h : p.classification with _ | c
      · have hstep : tallyStep m p = m := by simp [tallyStep, h]
        rw [List.foldl_cons, hstep]
        obtain ⟨h1, h2, h3⟩ := ih m hnd
        refine ⟨h1, ?_, ?_⟩
        · intro cat; rw [h2 cat, specCategoryCount_cons]; simp [h]
        · rw [h3, specNumClassified_cons]; simp [h]
      · have hstep : tallyStep m p = bumpCategory m c.category := by simp [tallyStep, h]
        rw [List.foldl_cons, hstep]
        obtain ⟨h1, h2, h3⟩ :=
          ih (bumpCategory m c.category) (keysNodup_bumpCategory m c.category hnd)
        refine ⟨h1, ?_, ?_⟩
        · intro cat
          rw [h2 cat, lookupCount_bumpCategory, specCategoryCount_cons]
          by_cases hc : cat = c.category
          · subst hc; simp [h]; omega
          · have hc' : ¬(c.category = cat) := fun he => hc he.symm
            simp [h, hc, hc']
        · rw [h3, tallySum_bumpCategory m c.category hnd, specNumClassified_cons]
          simp [h]
          omega

/-- The tally reads back the per-category counts of the classified
pairs, and its values sum to the number of classified pairs. -/
theorem categoryCounts_spec (cs : List ClassifiedEmail) :
    (∀ cat, lookupCount (categoryCounts cs) cat = specCategoryCount cs cat)
      ∧ tallySum (categoryCounts cs) = specNumClassified cs := by
  obtain ⟨_, h2, h3⟩ := categoryCounts_go cs [] (by simp [tallyKeys])
  refine ⟨fun cat => ?_, ?_⟩
  · simpa [lookupCount] using h2 cat
  · simpa [tallySum] using h3

/-! ## Concrete fixtures for witnesses and counterexamples -/

/-- A sample unread email with every optional field present. -/
def sampleEmail : Email :=
  { id := some "m1", subject := some "Quarterly numbers",
    bodyContent := some "Please review the attached figures.",
    fromAddress := some "alice@example.com" }

/-- A classification of high importance. -/
def highClass : EmailClassification :=
  { category := "work", importance := "high", suggestedAction := "reply",
    summary := "Review the figures." }

/-- A classification of low importance. -/
def lowClass : EmailClassification :=
  { category := "spam", importance := "low", suggestedAction := "delete",
    summary := "Unsolicited offer." }

/-- A configuration with every variable set, summary target included. -/
def fullConfig : Config :=
  { CLIENT_ID := some "cid", CLIENT_SECRET := some "sec", TENANT_ID := some "tid",
    AZURE_OPENAI_API_KEY := some "key", AZURE_OPENAI_API_ENDPOINT := some "ep",
    AZURE_OPENAI_API_VERSION := some "2024-02-01",
    AZURE_OPENAI_DEPLOYMENT_NAME := some "gpt",
    SUMMARY_TARGET_EMAIL := some "boss@example.com",
    TARGET_USER_ID := some "u1", SENDER_EMAIL_USER_ID := some "u2" }

/-- Config fullConfig with the summary target unset. -/
def noTargetConfig : Config :=
  { fullConfig with SUMMARY_TARGET_EMAIL := none }

/-- Config fullConfig with the client secret unset. -/
def missingSecretConfig : Config :=
  { fullConfig with CLIENT_SECRET := none }

/-- A classifier oracle that always fails. -/
def oracleNone : String → String → Option EmailClassification :=
  fun _ _ => none

/-- Environment: everything succeeds except the outgoing send. -/
def envSendFail : Env :=
  { cfg := fullConfig, today := "1/1/2025", tokenOk := true,
    fetchResult := Except.ok [sampleEmail], classifyOracle := oracleNone,
    sendOk := false }

/-- Environment: everything succeeds, summary target configured. -/
def envSendOk : Env :=
  { envSendFail with sendOk := true }

/-- Environment: everything succeeds, no summary target configured. -/
def envNoTarget : Env :=
  { envSendOk with cfg := noTargetConfig }

/-- Environment: the mailbox has no unread emails. -/
def envEmptyFetch : Env :=
  { envSendOk with fetchResult := Except.ok [] }

/-- Environment: the client secret is missing from the configuration. -/
def envMissingSecret : Env :=
  { envSendOk with cfg := missingSecretConfig }

/-! ## Claims -/

/-- C1: every email whose classification succeeded appears exactly once
in the All Email Summaries section, in original fetch order: the
section's body is the concatenation of exactly one entry block per
classified pair, over the classified subsequence of the pairs in input
order; and `processEmails` emits its pairs in the order of the fetched
emails. -/
theorem claim_C1 :
    (∀ cs : List ClassifiedEmail,
      allSummaryLines cs
        = (specClassifiedPairs cs).flatMap (fun q => allEntryLines q.1 q.2))
    ∧ ∀ (classify : String → String → Option EmailClassification) (emails : List Email),
        (processEmails classify emails).map ClassifiedEmail.email = emails := by
  refine ⟨allSummaryLines_eq, ?_⟩
  intro classify emails
  induction emails with
  | nil => rfl
  | cons e es ih => simpa [processEmails] using ih

/-- C2: the category tally maps each category to exactly the number of
successfully classified emails of that category; the tally's values sum
to the number of successfully classified emails, which is at most the
number of pairs. -/
theorem claim_C2 (cs : List ClassifiedEmail) :
    (∀ cat, lookupCount (categoryCounts cs) cat = specCategoryCount cs cat)
    ∧ tallySum (categoryCounts cs) = specNumClassified cs
    ∧ specNumClassified cs ≤ cs.length := by
  obtain ⟨h1, h2⟩ := categoryCounts_spec cs
  exact ⟨h1, h2, List.length_filter_le _ _⟩

/-- A JSON object whose field values lie outside the enumerated
classification value sets. -/
def badClassificationJson : Json :=
  Json.jobj
    [("category", Json.jstr "banana"), ("importance", Json.jstr "sometimes"),
     ("suggestedAction", Json.jstr "dance"), ("summary", Json.jstr "gibberish")]

/-- C3 counterexample: a response whose text parses as JSON but whose
`category` value is outside the enumerated category set is returned as a
classification instead of being mapped to none. -/
theorem claim_C3_counterexample :
    classifyWithOpenAI (LMResponse.content (ParsedContent.value badClassificationJson))
        = some badClassificationJson
    ∧ jsonField badClassificationJson "category" = some (Json.jstr "banana")
    ∧ "banana" ∉ validCategories := by
  refine ⟨rfl, rfl, ?_⟩
  simp [validCategories]

/-- C3 (amended): `classifyWithOpenAI` never raises to its caller, and
it returns none on a network/request error, on missing content, and on
content that is not JSON; but a response that parses as JSON is returned
as the classification without any validation of its fields, so
unexpected field values outside the enumerated value sets are passed
through rather than mapped to none. -/
theorem claim_C3_amended :
    classifyWithOpenAI LMResponse.requestError = none
    ∧ classifyWithOpenAI LMResponse.missingContent = none
    ∧ classifyWithOpenAI (LMResponse.content ParsedContent.parseError) = none
    ∧ ∀ v : Json, classifyWithOpenAI (LMResponse.content (ParsedContent.value v)) = some v :=
  ⟨rfl, rfl, rfl, fun _ => rfl⟩

/-- C4 counterexample: with valid credentials, a non-empty fetch and
classification completed, a failing summary send terminates the run with
exit code 1 — it is not absorbed as a logged warning with the run still
counted as processed. -/
theorem claim_C4_counterexample :
    (main envSendFail).2 = Outcome.exited 1 := by decide

/-- C4 (amended): if the summary dispatch fails after classification
completed, the exception propagates to the top-level handler, which logs
it and terminates the run with exit code 1 — the same fatal treatment as
an authentication or fetch failure, not a warning with the run counted
as processed. -/
theorem claim_C4_amended (e : Env) (emails : List Email)
    (h1 : envTruthy e.cfg.CLIENT_ID = true) (h2 : envTruthy e.cfg.CLIENT_SECRET = true)
    (h3 : envTruthy e.cfg.TENANT_ID = true)
    (h4 : envTruthy e.cfg.AZURE_OPENAI_API_KEY = true)
    (h5 : envTruthy e.cfg.AZURE_OPENAI_API_ENDPOINT = true)
    (htok : e.tokenOk = true)
    (hfetch : e.fetchResult = Except.ok emails) (hne : emails ≠ [])
    (t : String) (ht : truthyStr e.cfg.SUMMARY_TARGET_EMAIL = some t)
    (hsend : e.sendOk = false) :
    (main e).2 = Outcome.exited 1 := by
  rcases emails with _ | ⟨e0, rest⟩
  · exact absurd rfl hne
  · have hT : envTruthy e.cfg.SUMMARY_TARGET_EMAIL = true := by simp [envTruthy, ht]
    simp [main, h1, h2, h3, h4, h5, htok, hfetch, hT, sendSummaryEmail, ht, hsend]

/-- C4 witness for the amended claim at a concrete environment. -/
theorem claim_C4_amended_witness : (main envSendFail).2 = Outcome.exited 1 :=
  claim_C4_amended envSendFail [sampleEmail] rfl rfl rfl rfl rfl rfl rfl
    (by simp) "boss@example.com" rfl rfl

/-- C5: with a valid run up to dispatch, an unset summary target routes
the rendered report to process output with zero send calls, while a set
target with a successful send produces exactly one send call, carrying
the full rendered report as body, the configured address as recipient,
and the fixed subject "Email Summary", with no report logging. -/
theorem claim_C5 (e : Env) (emails : List Email)
    (h1 : envTruthy e.cfg.CLIENT_ID = true) (h2 : envTruthy e.cfg.CLIENT_SECRET = true)
    (h3 : envTruthy e.cfg.TENANT_ID = true)
    (h4 : envTruthy e.cfg.AZURE_OPENAI_API_KEY = true)
    (h5 : envTruthy e.cfg.AZURE_OPENAI_API_ENDPOINT = true)
    (htok : e.tokenOk = true)
    (hfetch : e.fetchResult = Except.ok emails) (hne : emails ≠ []) :
    (truthyStr e.cfg.SUMMARY_TARGET_EMAIL = none →
      (main e).1
        = [Call.mailboxList,
           Call.logReport (generateSummaryReport e.today (processEmails e.classifyOracle emails))]
      ∧ sendCalls (main e).1 = [])
    ∧ (∀ t, truthyStr e.cfg.SUMMARY_TARGET_EMAIL = some t → e.sendOk = true →
      sendCalls (main e).1
        = [Call.sendMail t "Email Summary"
            (generateSummaryReport e.today (processEmails e.classifyOracle emails))]
      ∧ logReportCalls (main e).1 = []) := by
  rcases emails with _ | ⟨e0, rest⟩
  · exact absurd rfl hne
  · constructor
    · intro hts
      have hT : envTruthy e.cfg.SUMMARY_TARGET_EMAIL = false := by simp [envTruthy, hts]
      have hm : (main e).1
          = [Call.mailboxList,
             Call.logReport
               (generateSummaryReport e.today (processEmails e.classifyOracle (e0 :: rest)))] := by
        simp [main, h1, h2, h3, h4, h5, htok, hfetch, hT]
      rw [hm]
      exact ⟨rfl, rfl⟩
    · intro t ht hs
      have hT : envTruthy e.cfg.SUMMARY_TARGET_EMAIL = true := by simp [envTruthy, ht]
      have hm : (main e).1
          = [Call.mailboxList,
             Call.sendMail t "Email Summary"
               (generateSummaryReport e.today (processEmails e.classifyOracle (e0 :: rest)))] := by
        simp [main, h1, h2, h3, h4, h5, htok, hfetch, hT, sendSummaryEmail, ht, hs]
      rw [hm]
      exact ⟨rfl, rfl⟩

/-- C5 witness at a concrete environment with the summary target set. -/
theorem claim_C5_witness :
    sendCalls (main envSendOk).1
      = [Call.sendMail "boss@example.com" "Email Summary"
          (generateSummaryReport envSendOk.today
            (processEmails envSendOk.classifyOracle [sampleEmail]))]
    ∧ logReportCalls (main envSendOk).1 = [] :=
  (claim_C5 envSendOk [sampleEmail] rfl rfl rfl rfl rfl rfl rfl (by simp)).2
    "boss@example.com" rfl rfl

/-- C6: when the fetched unread-email list is empty, the run transitions
directly to the nothing-to-do outcome, with the mailbox listing as its
only outward call: no report is generated and no send or report-logging
call occurs. -/
theorem claim_C6 (e : Env)
    (h1 : envTruthy e.cfg.CLIENT_ID = true) (h2 : envTruthy e.cfg.CLIENT_SECRET = true)
    (h3 : envTruthy e.cfg.TENANT_ID = true)
    (h4 : envTruthy e.cfg.AZURE_OPENAI_API_KEY = true)
    (h5 : envTruthy e.cfg.AZURE_OPENAI_API_ENDPOINT = true)
    (htok : e.tokenOk = true)
    (hfetch : e.fetchResult = Except.ok ([] : List Email)) :
    main e = ([Call.mailboxList], Outcome.nothingToDo)
    ∧ sendCalls (main e).1 = [] ∧ logReportCalls (main e).1 = [] := by
  have hm : main e = ([Call.mailboxList], Outcome.nothingToDo) := by
    simp [main, h1, h2, h3, h4, h5, htok, hfetch]
  refine ⟨hm, ?_, ?_⟩ <;> rw [hm] <;> rfl

/-- C6 witness at a concrete environment with an empty inbox. -/
theorem claim_C6_witness :
    main envEmptyFetch = ([Call.mailboxList], Outcome.nothingToDo)
    ∧ sendCalls (main envEmptyFetch).1 = [] ∧ logReportCalls (main envEmptyFetch).1 = [] :=
  claim_C6 envEmptyFetch rfl rfl rfl rfl rfl rfl rfl

/-- C7: a pair whose classification is none contributes nothing to the
All Email Summaries section, the High Priority list, or the category
tally — removing it changes none of the three — and a failed
classification does not stop processing: `processEmails` still yields
one pair per fetched email. -/
theorem claim_C7 :
    (∀ (before after : List ClassifiedEmail) (e : Email),
      allSummaryLines (before ++ { email := e, classification := none } :: after)
          = allSummaryLines (before ++ after)
      ∧ highPriorityEmails (before ++ { email := e, classification := none } :: after)
          = highPriorityEmails (before ++ after)
      ∧ categoryCounts (before ++ { email := e, classification := none } :: after)
          = categoryCounts (before ++ after))
    ∧ ∀ (classify : String → String → Option EmailClassification) (emails : List Email),
        (processEmails classify emails).length = emails.length := by
  constructor
  · intro before after e
    refine ⟨?_, ?_, ?_⟩
    · rw [allSummaryLines_eq, allSummaryLines_eq]
      simp [specClassifiedPairs, List.filterMap_append, List.filterMap_cons]
    · rw [highPriorityEmails_eq, highPriorityEmails_eq]
      simp [specHighPriorityPairs, specClassifiedPairs, List.filterMap_append,
        List.filterMap_cons]
    · simp [categoryCounts, List.foldl_append, List.foldl_cons, tallyStep]
  · intro classify emails
    simp [processEmails]

/-- C8: every classified email of importance high or critical is in both
the high-priority list and the All-section entries; one of importance
low or medium is in the All-section entries only; and the High Priority
Emails section is omitted entirely when the high-priority list is
empty. -/
theorem claim_C8 :
    (∀ (cs : List ClassifiedEmail) (e : Email) (c : EmailClassification),
      ClassifiedEmail.mk e (some c) ∈ cs →
        ((c.importance = "high" ∨ c.importance = "critical") →
          (e, c) ∈ highPriorityEmails cs ∧ (e, c) ∈ specClassifiedPairs cs)
        ∧ ((c.importance = "low" ∨ c.importance = "medium") →
          (e, c) ∉ highPriorityEmails cs ∧ (e, c) ∈ specClassifiedPairs cs))
    ∧ ∀ cs : List ClassifiedEmail,
        highPriorityEmails cs = [] → highPriorityLines cs = [] := by
  constructor
  · intro cs e c hmem
    have hall : (e, c) ∈ specClassifiedPairs cs :=
      List.mem_filterMap.mpr ⟨ClassifiedEmail.mk e (some c), hmem, rfl⟩
    constructor
    · intro himp
      have hup : isHighPriority c = true := by
        unfold isHighPriority
        rcases himp with h | h <;> rw [h] <;> rfl
      refine ⟨?_, hall⟩
      rw [highPriorityEmails_eq]
      exact List.mem_filter.mpr ⟨hall, by simpa using hup⟩
    · intro himp
      have hdown : isHighPriority c = false := by
        unfold isHighPriority
        rcases himp with h | h <;> rw [h] <;> rfl
      refine ⟨?_, hall⟩
      intro hin
      rw [highPriorityEmails_eq] at hin
      have hq := (List.mem_filter.mp hin).2
      simp [hdown] at hq
  · intro cs h
    simp [highPriorityLines, h]

/-- C8 witness: a high-importance classified email lands in both
sections, and a batch with only a low-importance email renders no High
Priority section. -/
theorem claim_C8_witness :
    ((sampleEmail, highClass)
        ∈ highPriorityEmails [ClassifiedEmail.mk sampleEmail (some highClass)]
      ∧ (sampleEmail, highClass)
        ∈ specClassifiedPairs [ClassifiedEmail.mk sampleEmail (some highClass)])
    ∧ highPriorityLines [ClassifiedEmail.mk sampleEmail (some lowClass)] = [] := by
  constructor
  · exact (claim_C8.1 [ClassifiedEmail.mk sampleEmail (some highClass)] sampleEmail highClass
      (by simp)).1 (Or.inl rfl)
  · exact claim_C8.2 [ClassifiedEmail.mk sampleEmail (some lowClass)] (by decide)

/-- C9: a missing identity credential (client id, client secret, tenant
id) or a missing required language-model credential (API key, endpoint)
aborts the run at startup with exit code 1 and an empty outward-call
trace, hence before any mailbox call; a missing summary target address
alone does not abort the run. -/
theorem claim_C9 (e : Env) :
    ((envTruthy e.cfg.CLIENT_ID = false ∨ envTruthy e.cfg.CLIENT_SECRET = false
        ∨ envTruthy e.cfg.TENANT_ID = false
        ∨ envTruthy e.cfg.AZURE_OPENAI_API_KEY = false
        ∨ envTruthy e.cfg.AZURE_OPENAI_API_ENDPOINT = false) →
      main e = ([], Outcome.exited 1))
    ∧ (envTruthy e.cfg.CLIENT_ID = true → envTruthy e.cfg.CLIENT_SECRET = true →
       envTruthy e.cfg.TENANT_ID = true → envTruthy e.cfg.AZURE_OPENAI_API_KEY = true →
       envTruthy e.cfg.AZURE_OPENAI_API_ENDPOINT = true → e.tokenOk = true →
       ∀ emails, e.fetchResult = Except.ok emails →
       e.cfg.SUMMARY_TARGET_EMAIL = none →
       (main e).2 ≠ Outcome.exited 1) := by
  constructor
  · intro h
    rcases h with h | h | h | h | h
    · simp [main, h]
    · simp [main, h]
    · simp [main, h]
    · by_cases hid : (envTruthy e.cfg.CLIENT_ID && envTruthy e.cfg.CLIENT_SECRET
          && envTruthy e.cfg.TENANT_ID) = true
      · simp [main, hid, h]
      · have hf : (envTruthy e.cfg.CLIENT_ID && envTruthy e.cfg.CLIENT_SECRET
            && envTruthy e.cfg.TENANT_ID) = false := by simpa using hid
        simp [main, hf]
    · by_cases hid : (envTruthy e.cfg.CLIENT_ID && envTruthy e.cfg.CLIENT_SECRET
          && envTruthy e.cfg.TENANT_ID) = true
      · simp [main, hid, h]
      · have hf : (envTruthy e.cfg.CLIENT_ID && envTruthy e.cfg.CLIENT_SECRET
            && envTruthy e.cfg.TENANT_ID) = false := by simpa using hid
        simp [main, hf]
  · intro h1 h2 h3 h4 h5 htok emails hfetch hts
    have hT : envTruthy e.cfg.SUMMARY_TARGET_EMAIL = false := by
      simp [envTruthy, truthyStr, hts]
    rcases emails with _ | ⟨e0, rest⟩
    · simp [main, h1, h2, h3, h4, h5, htok, hfetch]
    · simp [main, h1, h2, h3, h4, h5, htok, hfetch, hT]

/-- C9 witness: a configuration missing the client secret aborts with
exit code 1 and no mailbox call, while a configuration missing only the
summary target completes without aborting. -/
theorem claim_C9_witness :
    main envMissingSecret = ([], Outcome.exited 1)
    ∧ (main envNoTarget).2 ≠ Outcome.exited 1 :=
  ⟨(claim_C9 envMissingSecret).1 (Or.inr (Or.inl rfl)),
   (claim_C9 envNoTarget).2 rfl rfl rfl rfl rfl rfl [sampleEmail] rfl rfl⟩

theorem foldl_tallyStep_all_none :
    ∀ (cs : List ClassifiedEmail) (m : List (String × Nat)),
      (∀ p ∈ cs, p.classification = none) → cs.foldl tallyStep m = m := by
  intro cs
  induction cs with
  | nil => intro m _; rfl
  | cons p cs ih =>
      intro m h
      have hp : p.classification = none := h p (by simp)
      rw [List.foldl_cons, show tallyStep m p = m by simp [tallyStep, hp]]
      exact ih m (fun q hq => h q (by simp [hq]))

theorem specClassifiedPairs_all_none (cs : List ClassifiedEmail)
    (h : ∀ p ∈ cs, p.classification = none) :
    specClassifiedPairs cs = [] := by
  apply List.filterMap_eq_nil_iff.mpr
  intro p hp
  simp [h p hp]

/-- With every classification failed, the report reduces to the title,
the Category Breakdown header with no entries, no High Priority section,
and the All Email Summaries header with no entries. -/
theorem reportLines_all_none (today : String) (cs : List ClassifiedEmail)
    (h : ∀ p ∈ cs, p.classification = none) :
    reportLines today cs
      = ["Email Summary Report - " ++ today ++ "\n", "📊 Category Breakdown:",
         "\n📧 All Email Summaries:"] := by
  have hcc : categoryCounts cs = [] := foldl_tallyStep_all_none cs [] h
  have hsp : specClassifiedPairs cs = [] := specClassifiedPairs_all_none cs h
  have hhp : highPriorityEmails cs = [] := by
    rw [highPriorityEmails_eq]; simp [specHighPriorityPairs, hsp]
  have hal : allSummaryLines cs = [] := by rw [allSummaryLines_eq, hsp]; rfl
  simp [reportLines, hcc, categoryLines, highPriorityLines, hhp, hal]

/-- C10: when the fetch is non-empty but every classification fails, the
run does not take the nothing-to-do outcome: a report consisting of the
title line, the Category Breakdown header with no entries, no High
Priority section, and the All Email Summaries header with no entries is
still generated and dispatched — printed when the summary target is
unset, sent when it is set and the send resolves. -/
theorem claim_C10 (e : Env) (emails : List Email)
    (h1 : envTruthy e.cfg.CLIENT_ID = true) (h2 : envTruthy e.cfg.CLIENT_SECRET = true)
    (h3 : envTruthy e.cfg.TENANT_ID = true)
    (h4 : envTruthy e.cfg.AZURE_OPENAI_API_KEY = true)
    (h5 : envTruthy e.cfg.AZURE_OPENAI_API_ENDPOINT = true)
    (htok : e.tokenOk = true)
    (hfetch : e.fetchResult = Except.ok emails) (hne : emails ≠ [])
    (hcls : ∀ s b, e.classifyOracle s b = none) :
    (main e).2 ≠ Outcome.nothingToDo
    ∧ (truthyStr e.cfg.SUMMARY_TARGET_EMAIL = none →
        main e = ([Call.mailboxList,
          Call.logReport (String.intercalate "\n"
            ["Email Summary Report - " ++ e.today ++ "\n", "📊 Category Breakdown:",
             "\n📧 All Email Summaries:"])], Outcome.donePrinted))
    ∧ (∀ t, truthyStr e.cfg.SUMMARY_TARGET_EMAIL = some t → e.sendOk = true →
        main e = ([Call.mailboxList,
          Call.sendMail t "Email Summary"
            (String.intercalate "\n"
              ["Email Summary Report - " ++ e.today ++ "\n", "📊 Category Breakdown:",
               "\n📧 All Email Summaries:"])], Outcome.doneSent)) := by
  have hall : ∀ p ∈ processEmails e.classifyOracle emails, p.classification = none := by
    intro p hp
    simp [processEmails] at hp
    obtain ⟨e0, he0, rfl⟩ := hp
    simp [hcls]
  have hrep : generateSummaryReport e.today (processEmails e.classifyOracle emails)
      = String.intercalate "\n"
          ["Email Summary Report - " ++ e.today ++ "\n", "📊 Category Breakdown:",
           "\n📧 All Email Summaries:"] := by
    rw [generateSummaryReport, reportLines_all_none e.today _ hall]
  rcases emails with _ | ⟨e0, rest⟩
  · exact absurd rfl hne
  · refine ⟨?_, ?_, ?_⟩
    · by_cases hT : envTruthy e.cfg.SUMMARY_TARGET_EMAIL = true
      · rcases hts : truthyStr e.cfg.SUMMARY_TARGET_EMAIL with _ | t
        · rw [envTruthy, hts] at hT; simp at hT
        · cases hsOk : e.sendOk
          · simp [main, h1, h2, h3, h4, h5, htok, hfetch, hT, sendSummaryEmail, hts, htok,
              hsOk]
          · simp [main, h1, h2, h3, h4, h5, htok, hfetch, hT, sendSummaryEmail, hts, htok,
              hsOk]
      · have hTf : envTruthy e.cfg.SUMMARY_TARGET_EMAIL = false := by simpa using hT
        simp [main, h1, h2, h3, h4, h5, htok, hfetch, hTf]
    · intro hts
      have hTf : envTruthy e.cfg.SUMMARY_TARGET_EMAIL = false := by
        simp [envTruthy, hts]
      simp [main, h1, h2, h3, h4, h5, htok, hfetch, hTf, hrep]
    · intro t ht hs
      have hT : envTruthy e.cfg.SUMMARY_TARGET_EMAIL = true := by
        simp [envTruthy, ht]
      simp [main, h1, h2, h3, h4, h5, htok, hfetch, hT, sendSummaryEmail, ht, htok, hs,
        hrep]

/-- C10 witness: one unread email, all classifications failing, no
summary target: the skeleton report is printed and the run completes. -/
theorem claim_C10_witness :
    main envNoTarget = ([Call.mailboxList,
      Call.logReport (String.intercalate "\n"
        ["Email Summary Report - " ++ envNoTarget.today ++ "\n", "📊 Category Breakdown:",
         "\n📧 All Email Summaries:"])], Outcome.donePrinted) :=
  (claim_C10 envNoTarget [sampleEmail] rfl rfl rfl rfl rfl rfl rfl (by simp)
    (fun _ _ => rfl)).2.1 rfl

end MailScanner
